import Mathlib

set_option maxHeartbeats 1000000

/-!
Verification development for the Babylon.js node-material graph editor
(`src/nodeEditor/src/graphEditor.tsx`) and the InputHub variants
(`src/src/Inputs/inputHub.ts`, `src/unnamed/part_000`, `src/unnamed/part_001`).

Pure shallow embedding: TypeScript class state becomes explicit record state,
event handlers become state-transforming functions, external collaborator
calls (logging, connectTo/disconnectFrom, selection notifications) become
explicit action traces.
-/

namespace NodeEditor

/-! ## Values (from `babylonjs/Maths/math`, restricted to the literals the
editor constructs: zero vectors, identity matrix, white, (1,1,1,1)). All
components the editor ever writes are integral, so integer components are an
exact embedding. -/

inductive Value where
  | vector2 (x y : Int)
  | vector3 (x y z : Int)
  | vector4 (x y z w : Int)
  | matrix (entries : List Int)
  | color3 (r g b : Int)
  | color4 (r g b a : Int)
deriving DecidableEq, Repr

def Vector2Zero : Value := .vector2 0 0

def Vector3Zero : Value := .vector3 0 0 0

def Vector4Zero : Value := .vector4 0 0 0 0

def MatrixIdentity : Value :=
  .matrix [1, 0, 0, 0, 0, 1, 0, 0, 0, 0, 1, 0, 0, 0, 0, 1]

def Color3White : Value := .color3 1 1 1

def Color4Ones : Value := .color4 1 1 1 1

/-! ## Semantic connection points.

`NodeMaterialConnectionPoint` is not under `src/`; its state relevant to the
editor is modelled from the spec: a connection point has a name, a type
identity, an optional held literal value, and connections to other points. -/

structure CPData where
  cpName : String
  typeTag : String
  value : Option Value
  connectedTo : List Nat
deriving DecidableEq, Repr

def cpLookup (cps : List (Nat × CPData)) (i : Nat) : Option CPData :=
  (cps.find? (fun p => p.1 == i)).map (fun p => p.2)

def cpUpdate : List (Nat × CPData) → Nat → (CPData → CPData) → List (Nat × CPData)
  | [], _, _ => []
  | p :: rest, i, f => (if p.1 == i then (p.1, f p.2) else p) :: cpUpdate rest i f

/-- Modelled from the spec: `connectTo` on a `SemanticConnectionPoint`
(source file for `NodeMaterialConnectionPoint` is missing from `src/`).
The spec says a point "supports `connectTo`/`disconnectFrom` another
connection point"; we record the edge on both endpoints. -/
def connectTo (cps : List (Nat × CPData)) (outId inId : Nat) :
    List (Nat × CPData) :=
  cpUpdate
    (cpUpdate cps outId (fun c => { c with connectedTo := c.connectedTo ++ [inId] }))
    inId (fun c => { c with connectedTo := c.connectedTo ++ [outId] })

/-- Modelled from the spec: `disconnectFrom` on a `SemanticConnectionPoint`
(source file missing from `src/`); removes the edge from both endpoints. -/
def disconnectFrom (cps : List (Nat × CPData)) (outId inId : Nat) :
    List (Nat × CPData) :=
  cpUpdate
    (cpUpdate cps outId (fun c => { c with connectedTo := c.connectedTo.erase inId }))
    inId (fun c => { c with connectedTo := c.connectedTo.erase outId })

/-! ## Visual ports. -/

inductive PortDirection where
  | input
  | output
deriving DecidableEq, Repr

structure PortData where
  portName : String
  direction : PortDirection
  connection : Option Nat
  typeTag : String
  defaultValue : Option Value
  nodeId : Nat
deriving DecidableEq, Repr

/-- Modelled from the spec: `DefaultPortModel.syncWithNodeMaterialConnectionPoint`
(source file `defaultPortModel.ts` is missing from `src/`). The spec says the
port is resynchronized from its connection-point state: it binds the port to
the point and copies the point's caption and type identity onto the port. -/
def syncWithNodeMaterialConnectionPoint (p : PortData)
    (cpId : Nat) (cps : List (Nat × CPData)) : PortData :=
  match cpLookup cps cpId with
  | some cp => { p with connection := some cpId, portName := cp.cpName, typeTag := cp.typeTag }
  | none => p

structure SortedPorts where
  input : PortData
  output : PortData
deriving DecidableEq, Repr

namespace DefaultPortModel

/-- Modelled from the spec: `DefaultPortModel.SortInputOutput` (source file
`defaultPortModel.ts` is missing from `src/`; `graphEditor.tsx` only calls
it). Given two arbitrarily-ordered, possibly absent link endpoints, if
exactly one has direction input and the other direction output, return the
pair canonically labeled; otherwise (both input, both output, or either
endpoint missing) return `none` ("Invalid"). -/
def SortInputOutput (a b : Option PortData) : Option SortedPorts :=
  match a, b with
  | some pa, some pb =>
    match pa.direction, pb.direction with
    | .input, .output => some { input := pa, output := pb }
    | .output, .input => some { input := pb, output := pa }
    | _, _ => none
  | _, _ => none

end DefaultPortModel

/-! ## Link sync handlers (from `graphEditor.tsx` lines 195-252).

External side effects are recorded as an action trace; state mutated by the
handlers (connection-point store, per-input-node connection references) is
threaded explicitly. -/

inductive SyncAction where
  | selectionCleared
  | connectCall (outCp inCp : Nat)
  | disconnectCall (outCp inCp : Nat)
  | buildCall
deriving DecidableEq, Repr

structure HandlerState where
  cps : List (Nat × CPData)
  nodeConn : List (Nat × Option Nat)
deriving DecidableEq, Repr

def nodeConnLookup (l : List (Nat × Option Nat)) (nid : Nat) : Option (Option Nat) :=
  (l.find? (fun p => p.1 == nid)).map (fun p => p.2)

structure TargetPortChangedResult where
  outPort : Option PortData
  inPort : Option PortData
  st : HandlerState
  actions : List SyncAction
deriving DecidableEq, Repr

/-- Embedding of the `targetPortChanged` listener
(`graphEditor.tsx` lines 229-249). `materialPresent` reflects
`this.props.globalState.nodeMaterial` being non-null; the resulting call to
`buildMaterial` is recorded as a `buildCall` action. -/
def targetPortChanged (src tgt : Option PortData) (st : HandlerState)
    (materialPresent : Bool) : TargetPortChangedResult :=
  match DefaultPortModel.SortInputOutput src tgt with
  | none => { outPort := none, inPort := none, st := st, actions := [] }
  | some link =>
    let step : Option PortData × HandlerState × List SyncAction :=
      match link.output.connection, link.input.connection with
      | some oc, some ic =>
        (some link.output, { st with cps := connectTo st.cps oc ic },
          [SyncAction.connectCall oc ic])
      | none, some ic =>
        let savedName := link.output.portName
        let out2 : PortData :=
          { syncWithNodeMaterialConnectionPoint link.output ic st.cps with
            portName := savedName }
        let st2 : HandlerState :=
          { cps := cpUpdate st.cps ic (fun c => { c with value := link.output.defaultValue }),
            nodeConn := (out2.nodeId, out2.connection) :: st.nodeConn }
        (some out2, st2, [])
      | _, none => (some link.output, st, [])
    { outPort := step.1, inPort := some link.input, st := step.2.1,
      actions := step.2.2 ++ (if materialPresent then [SyncAction.buildCall] else []) }

structure LinksRemovedResult where
  inPort : Option PortData
  outPort : Option PortData
  st : HandlerState
  actions : List SyncAction
deriving DecidableEq, Repr

/-- Embedding of the link-deletion branch of the `linksUpdated` listener
(`graphEditor.tsx` lines 206-223, the `!e.isCreated` case). The
selection-cleared notification is recorded first, unconditionally. -/
def linksUpdatedRemoved (src tgt : Option PortData) (st : HandlerState) :
    LinksRemovedResult :=
  let base : List SyncAction := [SyncAction.selectionCleared]
  match DefaultPortModel.SortInputOutput src tgt with
  | none => { inPort := none, outPort := none, st := st, actions := base }
  | some link =>
    match link.input.connection with
    | none =>
      { inPort := some link.input, outPort := some link.output, st := st, actions := base }
    | some ic =>
      match link.output.connection with
      | some oc =>
        let cps1 := disconnectFrom st.cps oc ic
        { inPort := some (syncWithNodeMaterialConnectionPoint link.input ic cps1),
          outPort := some (syncWithNodeMaterialConnectionPoint link.output oc cps1),
          st := { st with cps := cps1 },
          actions := base ++ [SyncAction.disconnectCall oc ic] }
      | none =>
        match cpLookup st.cps ic with
        | some cp =>
          if cp.value.isSome then
            { inPort := some link.input, outPort := some link.output,
              st := { st with cps := cpUpdate st.cps ic (fun c => { c with value := none }) },
              actions := base }
          else
            { inPort := some link.input, outPort := some link.output, st := st, actions := base }
        | none =>
          { inPort := some link.input, outPort := some link.output, st := st, actions := base }

/-! ## Rebuild trigger (`buildMaterial`, `graphEditor.tsx` lines 176-188). -/

structure LogEntry where
  message : String
  isError : Bool
deriving DecidableEq, Repr

def buildSuccessMessage : String := "Node material build successful"

/-- Embedding of `buildMaterial`. The material is an identifier; the external
`build(true)` operation is a parameter that either succeeds or fails with an
error detail. The try/catch boundary is the `match` on the build outcome: a
failure becomes an error log entry, success an info log entry, and the result
is always `Except.ok` (nothing escapes the boundary). The second component of
the result is the trace of build invocations (their arguments). -/
def buildMaterial (material : Option Nat) (build : Nat → Except String Unit) :
    Except String (List LogEntry × List Nat) :=
  match material with
  | none => Except.ok ([], [])
  | some m =>
    match build m with
    | Except.ok _ =>
      Except.ok ([{ message := buildSuccessMessage, isError := false }], [m])
    | Except.error err =>
      Except.ok ([{ message := err, isError := true }], [m])

/-! ## Semantic blocks and the material.

`NodeMaterialBlock` is external/opaque; the editor consumes its
classification (Texture-like, Light-like, other), its `isFinalMerger` flag,
and its input dependencies. The material holds the block table and the
declared vertex/fragment output roots. -/

inductive BlockClass where
  | texture
  | light
  | generic
deriving DecidableEq, Repr

structure BlockData where
  blockId : Nat
  cls : BlockClass
  isFinalMerger : Bool
  inputs : List Nat
deriving DecidableEq, Repr

structure Material where
  blocks : List BlockData
  vertexOutputNodes : List Nat
  fragmentOutputNodes : List Nat
deriving DecidableEq, Repr

def findBlock (m : Material) (bid : Nat) : Option BlockData :=
  m.blocks.find? (fun b => b.blockId == bid)

/-! ## Visual nodes and the editor state. -/

inductive NodeVariant where
  | generic
  | texture
  | light
  | inputNode
deriving DecidableEq, Repr

structure VisualNode where
  nid : Nat
  variant : NodeVariant
  block : Option BlockData
  connection : Option Nat
  posX : Int
  posY : Int
deriving DecidableEq, Repr

inductive BuildEvent where
  | register (blockId : Nat)
  | nodeCreated (nid : Nat)
  | linkCreated (fromNode toNode : Nat)
deriving DecidableEq, Repr

/-- The mutable `GraphEditor` state: `rowPos` is the sparse per-column
row-counter array (`this._rowPos`, absent entries = `undefined`), `nodes` is
`this._nodes`, `modelNodes`/`modelLinks` is the content of `this._model`,
`toAdd` is `this._toAdd` (`none` = `null`), `outputNodes` is the material's
output-root registrar content, and `trace` records construction events in
order. -/
structure EditorState where
  rowPos : Nat → Option Nat
  nodes : List VisualNode
  modelNodes : List VisualNode
  modelLinks : List (Nat × Nat)
  toAdd : Option (List (Nat × Nat))
  outputNodes : List Nat
  nextId : Nat
  trace : List BuildEvent

/-- The state of a freshly constructed `GraphEditor` (field initializers:
`_rowPos = []`, `_nodes = []`, `_toAdd = []`). -/
def editorStart : EditorState :=
  { rowPos := fun _ => none, nodes := [], modelNodes := [], modelLinks := [],
    toAdd := some [], outputNodes := [], nextId := 0, trace := [] }

/-- Modelled from the spec: `NodeMaterial.addOutputNode` (the Output Root
Registrar's `register`; `nodeMaterial.ts` is missing from `src/`). The spec
makes it idempotent: registering an already-registered block is a no-op. -/
def addOutputNode (l : List Nat) (b : Nat) : List Nat :=
  if b ∈ l then l else l ++ [b]

/-- Modelled from the spec: `NodeMaterial.removeOutputNode` (the Output Root
Registrar's `unregister`; `nodeMaterial.ts` is missing from `src/`). The spec
makes it idempotent: unregistering an absent block is a no-op. -/
def removeOutputNode (l : List Nat) (b : Nat) : List Nat :=
  l.erase b

structure NodeCreationOptions where
  column : Nat
  nodeMaterialBlock : Option BlockData
  typeName : Option String
  connection : Option Nat
deriving Repr

/-- Embedding of the non-recursive body of `createNodeFromObject`
(`graphEditor.tsx` lines 80-122, everything except the `prepare` recursion):
row-counter update (lines 82-86), variant selection (lines 92-111), output
registration for final mergers (lines 105-107), and insertion of the new node
into `this._nodes` and directly into `this._model` (lines 113-115), with its
position set from the column and the updated row counter (line 114). -/
def createNodeCore (opts : NodeCreationOptions) (s : EditorState) :
    VisualNode × EditorState :=
  let row : Nat :=
    match s.rowPos opts.column with
    | none => 0
    | some r => r + 1
  let s1 : EditorState :=
    { s with rowPos := Function.update s.rowPos opts.column (some row) }
  let variant : NodeVariant :=
    match opts.nodeMaterialBlock with
    | some b =>
      match b.cls with
      | .texture => .texture
      | .light => .light
      | .generic => .generic
    | none => .inputNode
  let s2 : EditorState :=
    match opts.nodeMaterialBlock with
    | some b =>
      if b.isFinalMerger then
        { s1 with
          outputNodes := addOutputNode s1.outputNodes b.blockId
          trace := s1.trace ++ [BuildEvent.register b.blockId] }
      else s1
    | none => s1
  let node : VisualNode :=
    { nid := s2.nextId
      variant := variant
      block := opts.nodeMaterialBlock
      connection :=
        match opts.nodeMaterialBlock with
        | some _ => none
        | none => opts.connection
      posX := 1600 - 300 * (opts.column : Int)
      posY := 210 * (row : Int) }
  (node,
    { s2 with
      nodes := s2.nodes ++ [node]
      modelNodes := s2.modelNodes ++ [node]
      nextId := s2.nextId + 1
      trace := s2.trace ++ [BuildEvent.nodeCreated node.nid] })

/-- Modelled from the spec: how a constructed link reaches the model. During
a construction pass the pending change-set `_toAdd` is live (`some`), and the
link is appended to it; after the flush (`_toAdd = null`) links are added to
the model directly. (`defaultNodeModel.prepare`, which creates the links, is
missing from `src/`.) -/
def pushLink (s : EditorState) (l : Nat × Nat) : EditorState :=
  match s.toAdd with
  | some pend => { s with toAdd := some (pend ++ [l]) }
  | none => { s with modelLinks := s.modelLinks ++ [l] }

def findNodeForBlock (nodes : List VisualNode) (bid : Nat) : Option VisualNode :=
  nodes.find? (fun n =>
    match n.block with
    | some b => b.blockId == bid
    | none => false)

/-- The creation options `createNodeFromObject` receives for a semantic
block (`{ column: c, nodeMaterialBlock: b }`). -/
def mkBlockOpts (col : Nat) (bd : BlockData) : NodeCreationOptions :=
  { column := col, nodeMaterialBlock := some bd, typeName := none, connection := none }

/-- Embedding of the recursive construction (`createNodeFromObject` plus the
recursion performed by `defaultNodeModel.prepare`). The recursive part is
modelled from the spec: after creating the node, recurse into the block's
declared input dependencies with `column + 1`, reusing an already-seen node
for a shared predecessor, and record each discovered link via the pending
change-set. `fuel` bounds the recursion depth (the source recursion always
terminates because the semantic graph is a DAG). -/
def buildBlockRec (m : Material) : Nat → BlockData → Nat → EditorState →
    Option VisualNode × EditorState
  | 0, _, _, s => (none, s)
  | f + 1, bd, col, s =>
    let r := createNodeCore (mkBlockOpts col bd) s
    let s2 := bd.inputs.foldl
      (fun acc bid =>
        let pr : Option VisualNode × EditorState :=
          match findNodeForBlock acc.nodes bid with
          | some existing => (some existing, acc)
          | none =>
            match findBlock m bid with
            | some bd2 => buildBlockRec m f bd2 (col + 1) acc
            | none => (none, acc)
        match pr.1 with
        | some p => pushLink pr.2 (p.nid, r.1.nid)
        | none => pr.2)
      r.2
    (some r.1, s2)

/-- The fold step of `buildBlockRec`'s input recursion, as a named function
(definitionally equal to the inline step; used to state invariants about one
input-processing step). -/
def buildInputStep (m : Material) (f : Nat) (col2 : Nat) (cnid : Nat)
    (acc : EditorState) (bid : Nat) : EditorState :=
  let pr : Option VisualNode × EditorState :=
    match findNodeForBlock acc.nodes bid with
    | some existing => (some existing, acc)
    | none =>
      match findBlock m bid with
      | some bd2 => buildBlockRec m f bd2 col2 acc
      | none => (none, acc)
  match pr.1 with
  | some p => pushLink pr.2 (p.nid, cnid)
  | none => pr.2

/-- Embedding of the root loop of `build()` (`graphEditor.tsx` lines
255-263): construct a node from each declared output block at column 0. -/
def buildRoots (m : Material) (fuel : Nat) (roots : List Nat) (s : EditorState) :
    EditorState :=
  roots.foldl
    (fun acc bid =>
      match findBlock m bid with
      | some bd => (buildBlockRec m fuel bd 0 acc).2
      | none => acc)
    s

/-- Embedding of the construction part of `build()` (`graphEditor.tsx` lines
190-263): install a fresh `DiagramModel`, then construct from the vertex
output roots and the fragment output roots. -/
def buildPass (m : Material) (fuel : Nat) (s : EditorState) : EditorState :=
  let s0 := { s with modelNodes := [], modelLinks := [] }
  buildRoots m fuel m.fragmentOutputNodes (buildRoots m fuel m.vertexOutputNodes s0)

/-- Embedding of the deferred flush (`graphEditor.tsx` lines 266-273): if the
pending set exists, add all its links to the model; then set `_toAdd` to
`null`. -/
def flushPending (s : EditorState) : EditorState :=
  match s.toAdd with
  | some pend => { s with modelLinks := s.modelLinks ++ pend, toAdd := none }
  | none => { s with toAdd := none }

/-- Embedding of the node-deletion branch of the `nodesUpdated` listener
(`graphEditor.tsx` lines 196-205): if the deleted node's bound block is a
final merger, remove it from the output-root registrar. -/
def nodesUpdatedDeleted (node : VisualNode) (outs : List Nat) : List Nat :=
  match node.block with
  | some b => if b.isFinalMerger then removeOutputNode outs b.blockId else outs
  | none => outs

/-! ## Literal value nodes (`addValueNode`, `graphEditor.tsx` lines 292-322). -/

def vec2Name : String := "Vector2"

def vec3Name : String := "Vector3"

def vec4Name : String := "Vector4"

def matrixName : String := "Matrix"

def color3Name : String := "Color3"

def color4Name : String := "Color4"

/-- The default value assigned by the `switch` in `addValueNode`
(`graphEditor.tsx` lines 299-318) for a supported type name; `none` when the
type name matches no case. -/
def valueTypeDefault (typeName : String) : Option Value :=
  match typeName with
  | "Vector2" => some Vector2Zero
  | "Vector3" => some Vector3Zero
  | "Vector4" => some Vector4Zero
  | "Matrix" => some MatrixIdentity
  | "Color3" => some Color3White
  | "Color4" => some Color4Ones
  | _ => none

structure AddValueResult where
  node : VisualNode
  outPort : PortData
  st : EditorState

/-- Embedding of `addValueNode` (`graphEditor.tsx` lines 292-322): create an
Input-variant node via `createNodeFromObject`, attach an output port named
after the type, and, only when no connection was given, assign the port's
default value according to the type-name `switch`. -/
def addValueNode (typeName : String) (column : Nat) (connection : Option Nat)
    (s : EditorState) : AddValueResult :=
  let r := createNodeCore
    { column := column, nodeMaterialBlock := none, typeName := some typeName,
      connection := connection } s
  let outPort0 : PortData :=
    { portName := typeName, direction := .output, connection := none,
      typeTag := typeName, defaultValue := none, nodeId := r.1.nid }
  let outPort :=
    if connection.isNone then { outPort0 with defaultValue := valueTypeDefault typeName }
    else outPort0
  { node := r.1, outPort := outPort, st := r.2 }

end NodeEditor

namespace InputHub

/-! ## InputHub variants (`src/unnamed/part_000` and `src/unnamed/part_001`).

Both variants process one hardware event by iterating over the registered
hub events, collecting the names already raised in a local `raisedEvents`
array so that a name is notified at most once per hardware event. -/

inductive KeyEvtType where
  | keyDown
  | keyUp
deriving DecidableEq, Repr

structure KeyEvt where
  keyCode : Int
  location : Int
  altKey : Bool
  shiftKey : Bool
  ctrlKey : Bool
  evtType : KeyEvtType
deriving DecidableEq, Repr

inductive PointerEvtType where
  | pointerDown
  | pointerUp
  | pointerOther
deriving DecidableEq, Repr

structure PointerEvt where
  button : Int
  evtType : PointerEvtType
deriving DecidableEq, Repr

/-- Optional-boolean trigger fields (`altModifier?: boolean` etc.) are
embedded as `Bool` since JavaScript truthiness identifies `undefined` with
`false`; `rightModifier` keeps its three states (`!== undefined` is
tested). -/
structure KbTrigger where
  keyCode : Int
  altModifier : Bool
  shiftModifier : Bool
  ctrlModifier : Bool
  released : Bool
  rightModifier : Option Bool
deriving DecidableEq, Repr

structure MouseTrigger where
  button : Int
  altModifier : Bool
  shiftModifier : Bool
  ctrlModifier : Bool
  released : Bool
  rightModifier : Option Bool
deriving DecidableEq, Repr

structure KeyboardHubEvent where
  eventName : String
  trigger : KbTrigger
deriving DecidableEq, Repr

structure MouseHubEvent where
  eventName : String
  trigger : MouseTrigger
deriving DecidableEq, Repr

def altName : String := "alt"

def shiftName : String := "shift"

def ctrlName : String := "ctrl"

def rightSuffix : String := "Right"

def leftSuffix : String := "Left"

namespace Hub000

/-- Embedding of `_checkKeyModifier` (`part_000` lines 192-206):
`_modifierStates` is the string-keyed map (absent keys read as `false`). -/
def checkKeyModifier (states : String → Bool) (modName : String)
    (rightMod : Option Bool) : Bool :=
  if !(states modName) then false
  else
    match rightMod with
    | some true => states (modName ++ rightSuffix)
    | some false => states (modName ++ leftSuffix)
    | none => true

/-- Embedding of `_checkModifier` (`part_000` lines 172-190). -/
def checkModifier (states : String → Bool) (altM shiftM ctrlM : Bool)
    (rightMod : Option Bool) : Bool :=
  if altM && !(checkKeyModifier states altName rightMod) then false
  else if shiftM && !(checkKeyModifier states shiftName rightMod) then false
  else if ctrlM && !(checkKeyModifier states ctrlName rightMod) then false
  else true

def pointerMatches (t : MouseTrigger) (evt : PointerEvt) : Bool :=
  t.button == evt.button &&
    ((!t.released && evt.evtType == .pointerDown) ||
      (t.released && evt.evtType == .pointerUp))

/-- Embedding of the loop body of the pointer observer (`part_000` lines
94-112): returns, in order, the names notified on `onEventObservable` for
this one pointer event, threading the `raisedEvents` accumulator. -/
def pointerRaise (states : String → Bool) (evt : PointerEvt) :
    List MouseHubEvent → List String → List String
  | [], _ => []
  | e :: rest, raised =>
    if pointerMatches e.trigger evt then
      if !(checkModifier states e.trigger.altModifier e.trigger.shiftModifier
          e.trigger.ctrlModifier e.trigger.rightModifier) then
        pointerRaise states evt rest raised
      else if raised.contains e.eventName then
        pointerRaise states evt rest raised
      else
        e.eventName :: pointerRaise states evt rest (raised ++ [e.eventName])
    else
      pointerRaise states evt rest raised

def keyboardMatches (t : KbTrigger) (evt : KeyEvt) : Bool :=
  t.keyCode == evt.keyCode &&
    ((!t.released && evt.evtType == .keyDown) ||
      (t.released && evt.evtType == .keyUp))

/-- Embedding of the regular-keys loop of the keyboard observer (`part_000`
lines 149-167). -/
def keyboardRaise (states : String → Bool) (evt : KeyEvt) :
    List KeyboardHubEvent → List String → List String
  | [], _ => []
  | e :: rest, raised =>
    if keyboardMatches e.trigger evt then
      if !(checkModifier states e.trigger.altModifier e.trigger.shiftModifier
          e.trigger.ctrlModifier e.trigger.rightModifier) then
        keyboardRaise states evt rest raised
      else if raised.contains e.eventName then
        keyboardRaise states evt rest raised
      else
        e.eventName :: keyboardRaise states evt rest (raised ++ [e.eventName])
    else
      keyboardRaise states evt rest raised

/-- Embedding of the modifier-state bookkeeping for one modifier key
(`part_000` keyboard observer, `case 16/17/18`): set the plain key and the
location-specific key. -/
def setModifier (states : String → Bool) (modName : String) (evt : KeyEvt) :
    String → Bool :=
  let down := evt.evtType == KeyEvtType.keyDown
  let states1 := Function.update states modName down
  if evt.location == 2 then Function.update states1 (modName ++ rightSuffix) down
  else Function.update states1 (modName ++ leftSuffix) down

/-- Embedding of the full keyboard observer callback (`part_000` lines
115-168): modifier keys 16/17/18 only update `_modifierStates` and notify
nothing; other keys run the regular-keys loop. Result: updated modifier
states and the list of notified names. -/
def keyboardHandler (states : String → Bool) (evt : KeyEvt)
    (events : List KeyboardHubEvent) : (String → Bool) × List String :=
  if evt.keyCode == 16 then (setModifier states shiftName evt, [])
  else if evt.keyCode == 17 then (setModifier states ctrlName evt, [])
  else if evt.keyCode == 18 then (setModifier states altName evt, [])
  else (states, keyboardRaise states evt events [])

end Hub000

namespace Hub001

/-- Embedding of `_checkKeyModifier` (`part_001` lines 140-154): the plain
modifier flag is read from the key event itself (`keyEvent[prefix + "Key"]`),
the left/right distinction from `_modifierStates`. -/
def checkKeyModifier (states : String → Bool) (modName : String)
    (rightMod : Option Bool) (evt : KeyEvt) : Bool :=
  let flagOn :=
    if modName == altName then evt.altKey
    else if modName == shiftName then evt.shiftKey
    else if modName == ctrlName then evt.ctrlKey
    else false
  if !flagOn then false
  else
    match rightMod with
    | some true => states (modName ++ rightSuffix)
    | some false => states (modName ++ leftSuffix)
    | none => true

def keyboardMatches (t : KbTrigger) (evt : KeyEvt) : Bool :=
  t.keyCode == evt.keyCode &&
    ((!t.released && evt.evtType == .keyDown) ||
      (t.released && evt.evtType == .keyUp))

/-- Embedding of the regular-keys loop of the keyboard observer (`part_001`
lines 106-136): the three modifier checks are performed inline, then the
`raisedEvents` dedup, then the notification. -/
def keyboardRaise (states : String → Bool) (evt : KeyEvt) :
    List KeyboardHubEvent → List String → List String
  | [], _ => []
  | e :: rest, raised =>
    if keyboardMatches e.trigger evt then
      if e.trigger.altModifier &&
          !(checkKeyModifier states altName e.trigger.rightModifier evt) then
        keyboardRaise states evt rest raised
      else if e.trigger.shiftModifier &&
          !(checkKeyModifier states shiftName e.trigger.rightModifier evt) then
        keyboardRaise states evt rest raised
      else if e.trigger.ctrlModifier &&
          !(checkKeyModifier states ctrlName e.trigger.rightModifier evt) then
        keyboardRaise states evt rest raised
      else if raised.contains e.eventName then
        keyboardRaise states evt rest raised
      else
        e.eventName :: keyboardRaise states evt rest (raised ++ [e.eventName])
    else
      keyboardRaise states evt rest raised

/-- Embedding of the modifier-state bookkeeping (`part_001` keyboard
observer, `case 16/17/18`): only the location-specific key is set. -/
def setModifier (states : String → Bool) (modName : String) (evt : KeyEvt) :
    String → Bool :=
  let down := evt.evtType == KeyEvtType.keyDown
  if evt.location == 2 then Function.update states (modName ++ rightSuffix) down
  else Function.update states (modName ++ leftSuffix) down

/-- Embedding of the full keyboard observer callback (`part_001` lines
78-137). -/
def keyboardHandler (states : String → Bool) (evt : KeyEvt)
    (events : List KeyboardHubEvent) : (String → Bool) × List String :=
  if evt.keyCode == 16 then (setModifier states shiftName evt, [])
  else if evt.keyCode == 17 then (setModifier states ctrlName evt, [])
  else if evt.keyCode == 18 then (setModifier states altName evt, [])
  else (states, keyboardRaise states evt events [])

end Hub001

end InputHub

namespace NodeEditor

/-! ## Concrete inputs used by witnesses and counterexamples. -/

def c1Block : BlockData :=
  { blockId := 1, cls := BlockClass.generic, isFinalMerger := true, inputs := [] }

def c1Material : Material :=
  { blocks := [c1Block], vertexOutputNodes := [], fragmentOutputNodes := [1] }

def wInPortA : PortData :=
  { portName := "a", direction := PortDirection.input, connection := none,
    typeTag := "Float", defaultValue := none, nodeId := 0 }

def wInPortB : PortData :=
  { portName := "b", direction := PortDirection.input, connection := none,
    typeTag := "Float", defaultValue := none, nodeId := 1 }

def wCpX : CPData :=
  { cpName := "x", typeTag := "Vector3", value := none, connectedTo := [] }

def wCpY : CPData :=
  { cpName := "y", typeTag := "Vector3", value := some Vector3Zero, connectedTo := [7] }

def wBoundInPort : PortData :=
  { portName := "x", direction := PortDirection.input, connection := some 7,
    typeTag := "Vector3", defaultValue := none, nodeId := 2 }

def wBoundOutPort : PortData :=
  { portName := "y", direction := PortDirection.output, connection := some 8,
    typeTag := "Vector3", defaultValue := none, nodeId := 3 }

def wLiteralV3Out : PortData :=
  (addValueNode vec3Name 0 none editorStart).outPort

def wHandlerState : HandlerState :=
  { cps := [(7, wCpX), (8, wCpY)], nodeConn := [] }

def wHandlerStateHeld : HandlerState :=
  { cps := [(7, { wCpX with value := some Vector3Zero }), (8, wCpY)], nodeConn := [] }

def wFinalNode : VisualNode :=
  { nid := 0, variant := NodeVariant.generic, block := some c1Block,
    connection := none, posX := 1600, posY := 0 }

def buildOkFn : Nat → Except String Unit := fun _ => Except.ok ()

def buildErrMessage : String := "Uniform buffer overflow"

def buildErrFn : Nat → Except String Unit := fun _ => Except.error buildErrMessage

/-! ## Construction-pass invariant.

`PassInv s t` records what one construction step guarantees about the state:
the pending change-set stays live and only grows while the model's link list
is untouched, the trace only grows, the "every constructed node is already in
the model" correspondence is preserved, and the output-root registrar stays
duplicate-free and only grows. -/

structure PassInv (s t : EditorState) : Prop where
  pending : ∀ l, s.toAdd = some l →
    (∃ l2, t.toAdd = some (l ++ l2)) ∧ t.modelLinks = s.modelLinks
  traceExt : ∃ ev, t.trace = s.trace ++ ev
  nodesSync : s.modelNodes = s.nodes → t.modelNodes = t.nodes
  outNodup : s.outputNodes.Nodup → t.outputNodes.Nodup
  outMono : ∀ x, x ∈ s.outputNodes → x ∈ t.outputNodes

theorem passInvRefl (s : EditorState) : PassInv s s := by
  refine ⟨fun l hl => ⟨⟨[], by simp [hl]⟩, rfl⟩, ⟨[], by simp⟩, fun h => h,
    fun h => h, fun x hx => hx⟩

theorem passInvTrans {s t u : EditorState} (h1 : PassInv s t) (h2 : PassInv t u) :
    PassInv s u := by
  refine ⟨?_, ?_, ?_, ?_, ?_⟩
  · intro l hl
    obtain ⟨⟨l2, hl2⟩, hml⟩ := h1.pending l hl
    obtain ⟨⟨l3, hl3⟩, hml2⟩ := h2.pending (l ++ l2) hl2
    exact ⟨⟨l2 ++ l3, by simp [hl3]⟩, hml2.trans hml⟩
  · obtain ⟨e1, he1⟩ := h1.traceExt
    obtain ⟨e2, he2⟩ := h2.traceExt
    exact ⟨e1 ++ e2, by simp [he2, he1]⟩
  · exact fun h => h2.nodesSync (h1.nodesSync h)
  · exact fun h => h2.outNodup (h1.outNodup h)
  · exact fun x hx => h2.outMono x (h1.outMono x hx)

theorem addOutputNode_nodup {l : List Nat} {b : Nat} (h : l.Nodup) :
    (addOutputNode l b).Nodup := by
  unfold addOutputNode
  split
  · exact h
  · simp only [List.nodup_append, List.nodup_cons, List.nodup_nil]
    refine ⟨h, by simp, ?_⟩
    intro x hx
    simp only [List.mem_singleton]
    intro hxb
    subst hxb
    exact absurd hx (by assumption)

theorem mem_addOutputNode_self (l : List Nat) (b : Nat) : b ∈ addOutputNode l b := by
  unfold addOutputNode
  split
  · assumption
  · simp

theorem mem_addOutputNode_of_mem {l : List Nat} {b x : Nat} (h : x ∈ l) :
    x ∈ addOutputNode l b := by
  unfold addOutputNode
  split
  · exact h
  · simp [h]

theorem createNodeCore_passInv (opts : NodeCreationOptions) (s : EditorState) :
    PassInv s (createNodeCore opts s).2 := by
  unfold createNodeCore
  cases hb : opts.nodeMaterialBlock with
  | none =>
    refine ⟨fun l hl => ⟨⟨[], by simp [hl]⟩, rfl⟩, ⟨_, rfl⟩, ?_, fun h => h, fun x hx => hx⟩
    intro h
    simp [h]
  | some b =>
    by_cases hf : b.isFinalMerger
    · simp only [hf, if_true]
      refine ⟨fun l hl => ⟨⟨[], by simp [hl]⟩, rfl⟩,
        ⟨[BuildEvent.register b.blockId, BuildEvent.nodeCreated s.nextId], by simp⟩, ?_,
        fun h => addOutputNode_nodup h, fun x hx => mem_addOutputNode_of_mem hx⟩
      intro h
      simp [h]
    · simp only [hf, if_false]
      refine ⟨fun l hl => ⟨⟨[], by simp [hl]⟩, rfl⟩, ⟨_, rfl⟩, ?_, fun h => h, fun x hx => hx⟩
      intro h
      simp [h]

theorem pushLink_passInv (s : EditorState) (l : Nat × Nat) :
    PassInv s (pushLink s l) := by
  unfold pushLink
  cases ht : s.toAdd with
  | none =>
    refine ⟨fun l0 hl0 => ?_, ⟨[], by simp⟩, fun h => h, fun h => h, fun x hx => hx⟩
    rw [ht] at hl0
    exact absurd hl0 (by simp)
  | some pend =>
    refine ⟨fun l0 hl0 => ?_, ⟨[], by simp⟩, fun h => h, fun h => h, fun x hx => hx⟩
    rw [ht] at hl0
    cases hl0
    exact ⟨⟨[l], rfl⟩, rfl⟩

theorem foldl_passInv (step : EditorState → Nat → EditorState)
    (hstep : ∀ s b, PassInv s (step s b)) :
    ∀ (l : List Nat) (s : EditorState), PassInv s (l.foldl step s) := by
  intro l
  induction l with
  | nil => intro s; simpa using passInvRefl s
  | cons b rest ih =>
    intro s
    simp only [List.foldl_cons]
    exact passInvTrans (hstep s b) (ih (step s b))

theorem buildBlockRec_passInv (m : Material) :
    ∀ (fuel : Nat) (bd : BlockData) (col : Nat) (s : EditorState),
      PassInv s (buildBlockRec m fuel bd col s).2 := by
  intro fuel
  induction fuel with
  | zero => intro bd col s; simpa [buildBlockRec] using passInvRefl s
  | succ f ih =>
    intro bd col s
    simp only [buildBlockRec]
    refine passInvTrans (createNodeCore_passInv _ s) (foldl_passInv _ ?_ _ _)
    intro acc bid
    cases hfind : findNodeForBlock acc.nodes bid with
    | some existing => simpa [hfind] using pushLink_passInv acc _
    | none =>
      cases hfb : findBlock m bid with
      | none => simpa [hfind, hfb] using passInvRefl acc
      | some bd2 =>
        simp only [hfind, hfb]
        cases hres : (buildBlockRec m f bd2 (col + 1) acc).1 with
        | none => simpa [hres] using ih bd2 (col + 1) acc
        | some p =>
          simp only [hres]
          exact passInvTrans (ih bd2 (col + 1) acc) (pushLink_passInv _ _)

theorem buildRoots_passInv (m : Material) (fuel : Nat) (roots : List Nat) :
    ∀ s, PassInv s (buildRoots m fuel roots s) := by
  intro s
  unfold buildRoots
  refine foldl_passInv _ ?_ roots s
  intro s0 bid
  cases hfb : findBlock m bid with
  | none => simpa [hfb] using passInvRefl s0
  | some bd => simpa [hfb] using buildBlockRec_passInv m fuel bd 0 s0

theorem cpLookup_cpUpdate (cps : List (Nat × CPData)) (i : Nat) (f : CPData → CPData) :
    cpLookup (cpUpdate cps i f) i = (cpLookup cps i).map f := by
  induction cps with
  | nil => rfl
  | cons p rest ih =>
    by_cases hp : (p.1 == i) = true
    · simp [cpLookup, cpUpdate, hp]
    · have hpf : (p.1 == i) = false := by simpa using hp
      simp only [cpLookup, cpUpdate, hpf, if_false, Bool.false_eq_true, List.find?] at ih ⊢
      exact ih

/-! ## Claim theorems. -/

/-- C6: link orientation resolution is commutative: for every pair of visual
ports `a` and `b` (each possibly absent/malformed), `resolve(a,b)` equals
`resolve(b,a)`, including the case where both calls return Invalid. -/
theorem C6_sort_input_output_commutative (a b : Option PortData) :
    DefaultPortModel.SortInputOutput a b = DefaultPortModel.SortInputOutput b a := by
  cases a with
  | none => cases b <;> rfl
  | some pa =>
    cases b with
    | none => rfl
    | some pb =>
      cases hpa : pa.direction <;> cases hpb : pb.direction <;>
        simp [DefaultPortModel.SortInputOutput, hpa, hpb]

/-- C2: every call to the graph constructor with column `c` assigns row
`lastRow[c] + 1` when a prior entry exists for column `c` and `0` otherwise,
stores the result back into `lastRow[c]`, and places the node at
`x = 1600 - 300*c`, `y = 210*row`. -/
theorem C2_row_assignment_and_position (opts : NodeCreationOptions) (s : EditorState) :
    ((createNodeCore opts s).2).rowPos opts.column =
      some (match s.rowPos opts.column with | none => 0 | some r => r + 1) ∧
    (createNodeCore opts s).1.posX = 1600 - 300 * (opts.column : Int) ∧
    (createNodeCore opts s).1.posY =
      210 * (((match s.rowPos opts.column with | none => 0 | some r => r + 1) : Nat) : Int) := by
  unfold createNodeCore
  cases hr : s.rowPos opts.column <;> cases hb : opts.nodeMaterialBlock <;>
    simp [hr, hb, Function.update_same] <;> (try split) <;>
      simp [Function.update_same]

/-- C5: `rebuild()` (`buildMaterial`) invokes the semantic graph's build
operation exactly once per call when a material is present (the invocation
trace is `[mat]`), catches any failure and converts it into a
severity=error log entry carrying the failure detail, emits a severity=info
log entry on success, and never throws past this boundary (the result is
always `Except.ok`). -/
theorem C5_rebuild_boundary :
    (∀ (material : Option Nat) (build : Nat → Except String Unit),
      ∃ r, buildMaterial material build = Except.ok r) ∧
    (∀ (mat : Nat) (build : Nat → Except String Unit),
      (buildMaterial (some mat) build).map (fun r => r.2) = Except.ok [mat]) ∧
    (∀ (mat : Nat) (build : Nat → Except String Unit), build mat = Except.ok () →
      buildMaterial (some mat) build =
        Except.ok ([{ message := buildSuccessMessage, isError := false }], [mat])) ∧
    (∀ (mat : Nat) (build : Nat → Except String Unit) (err : String),
      build mat = Except.error err →
      buildMaterial (some mat) build =
        Except.ok ([{ message := err, isError := true }], [mat])) := by
  refine ⟨?_, ?_, ?_, ?_⟩
  · intro material build
    cases material with
    | none => exact ⟨_, rfl⟩
    | some m =>
      cases hb : build m with
      | ok u =>
        exact ⟨([{ message := buildSuccessMessage, isError := false }], [m]),
          by simp [buildMaterial, hb]⟩
      | error e =>
        exact ⟨([{ message := e, isError := true }], [m]), by simp [buildMaterial, hb]⟩
  · intro mat build
    cases hb : build mat <;> simp [buildMaterial, hb, Except.map]
  · intro mat build hb
    simp [buildMaterial, hb]
  · intro mat build err hb
    simp [buildMaterial, hb]

/-- C5 witness: at a concrete succeeding build and a concrete failing build,
the boundary yields the info entry and the error entry respectively, each
with exactly one build invocation. -/
theorem C5_rebuild_boundary_witness :
    buildOkFn 0 = Except.ok () ∧
    buildErrFn 0 = Except.error buildErrMessage ∧
    buildMaterial (some 0) buildOkFn =
      Except.ok ([{ message := buildSuccessMessage, isError := false }], [0]) ∧
    buildMaterial (some 0) buildErrFn =
      Except.ok ([{ message := buildErrMessage, isError := true }], [0]) :=
  ⟨rfl, rfl, C5_rebuild_boundary.2.2.1 0 buildOkFn rfl,
    C5_rebuild_boundary.2.2.2 0 buildErrFn buildErrMessage rfl⟩

/-- C8: when orientation resolution of a link's endpoints returns Invalid,
the attempted link is silently dropped by both handlers: the handler state is
unchanged, no semantic mutation or rebuild (hence no log entry) is recorded,
and the only action ever recorded is the unconditional selection-cleared
notification of the removal handler. -/
theorem C8_invalid_orientation_silently_dropped :
    (∀ (src tgt : Option PortData) (st : HandlerState) (matP : Bool),
      DefaultPortModel.SortInputOutput src tgt = none →
      targetPortChanged src tgt st matP =
        { outPort := none, inPort := none, st := st, actions := [] }) ∧
    (∀ (src tgt : Option PortData) (st : HandlerState),
      DefaultPortModel.SortInputOutput src tgt = none →
      linksUpdatedRemoved src tgt st =
        { inPort := none, outPort := none, st := st,
          actions := [SyncAction.selectionCleared] }) := by
  constructor
  · intro src tgt st matP h
    simp [targetPortChanged, h]
  · intro src tgt st h
    simp [linksUpdatedRemoved, h]

/-- C8 witness: two input-direction ports form an invalid pair; both handlers
leave the state untouched and perform no semantic action. -/
theorem C8_invalid_orientation_witness :
    DefaultPortModel.SortInputOutput (some wInPortA) (some wInPortB) = none ∧
    targetPortChanged (some wInPortA) (some wInPortB) wHandlerState true =
      { outPort := none, inPort := none, st := wHandlerState, actions := [] } ∧
    linksUpdatedRemoved (some wInPortA) (some wInPortB) wHandlerState =
      { inPort := none, outPort := none, st := wHandlerState,
        actions := [SyncAction.selectionCleared] } :=
  ⟨by decide,
    C8_invalid_orientation_silently_dropped.1 (some wInPortA) (some wInPortB)
      wHandlerState true (by decide),
    C8_invalid_orientation_silently_dropped.2 (some wInPortA) (some wInPortB)
      wHandlerState (by decide)⟩

/-- C9: constructing a literal node with no pre-bound connection assigns the
output port the defined default for its type name — the zero vector for
Vector2/Vector3/Vector4, the identity matrix for Matrix, white for Color3 and
(1,1,1,1) for Color4 — and these six type names are exactly the supported
set (any other name yields no default). -/
theorem C9_literal_node_defaults :
    (∀ (c : Nat) (s : EditorState),
      (addValueNode vec2Name c none s).outPort.defaultValue = some Vector2Zero) ∧
    (∀ (c : Nat) (s : EditorState),
      (addValueNode vec3Name c none s).outPort.defaultValue = some Vector3Zero) ∧
    (∀ (c : Nat) (s : EditorState),
      (addValueNode vec4Name c none s).outPort.defaultValue = some Vector4Zero) ∧
    (∀ (c : Nat) (s : EditorState),
      (addValueNode matrixName c none s).outPort.defaultValue = some MatrixIdentity) ∧
    (∀ (c : Nat) (s : EditorState),
      (addValueNode color3Name c none s).outPort.defaultValue = some Color3White) ∧
    (∀ (c : Nat) (s : EditorState),
      (addValueNode color4Name c none s).outPort.defaultValue = some Color4Ones) ∧
    (∀ (t : String) (c : Nat) (s : EditorState),
      (addValueNode t c none s).outPort.defaultValue = valueTypeDefault t) ∧
    (∀ t : String, (valueTypeDefault t).isSome =
      (t == vec2Name || t == vec3Name || t == vec4Name || t == matrixName ||
        t == color3Name || t == color4Name)) := by
  refine ⟨fun c s => by simp [addValueNode, valueTypeDefault, vec2Name],
    fun c s => by simp [addValueNode, valueTypeDefault, vec3Name],
    fun c s => by simp [addValueNode, valueTypeDefault, vec4Name],
    fun c s => by simp [addValueNode, valueTypeDefault, matrixName],
    fun c s => by simp [addValueNode, valueTypeDefault, color3Name],
    fun c s => by simp [addValueNode, valueTypeDefault, color4Name],
    fun t c s => by simp [addValueNode],
    ?_⟩
  intro t
  unfold valueTypeDefault
  split <;> simp_all [vec2Name, vec3Name, vec4Name, matrixName, color3Name, color4Name]

/-- C3: when a link becomes fully bound and orientation resolution succeeds
with only the input port bound to a semantic connection point, the engine
copies the input connection point's type identity onto the output port while
preserving the output port's existing display name (the result is exactly
the old output port with only `connection` and `typeTag` changed), records
the connection-point reference on the owning Input node, and sets the input
connection point's held literal value to the output port's default value. -/
theorem C3_adopt_on_input_only_bound (src tgt : Option PortData) (st : HandlerState)
    (matP : Bool) (link : SortedPorts) (ic : Nat) (cp : CPData)
    (hsort : DefaultPortModel.SortInputOutput src tgt = some link)
    (hout : link.output.connection = none)
    (hin : link.input.connection = some ic)
    (hcp : cpLookup st.cps ic = some cp) :
    (targetPortChanged src tgt st matP).outPort =
      some { link.output with connection := some ic, typeTag := cp.typeTag } ∧
    nodeConnLookup (targetPortChanged src tgt st matP).st.nodeConn link.output.nodeId =
      some (some ic) ∧
    (cpLookup (targetPortChanged src tgt st matP).st.cps ic).map (fun c => c.value) =
      some link.output.defaultValue := by
  simp only [targetPortChanged, hsort, hout, hin]
  refine ⟨?_, ?_, ?_⟩
  · simp [syncWithNodeMaterialConnectionPoint, hcp]
  · simp [syncWithNodeMaterialConnectionPoint, hcp, nodeConnLookup]
  · simp [cpLookup_cpUpdate, hcp]

/-- C3 witness: linking the unbound literal Vector3 node's output port to the
bound input connection point 7 gives: the output port now references point 7
with the point's type identity but its own display name, the owning Input
node records the reference, and point 7's held value becomes the literal's
default, the zero vector. -/
theorem C3_adopt_witness :
    DefaultPortModel.SortInputOutput (some wLiteralV3Out) (some wBoundInPort) =
      some { input := wBoundInPort, output := wLiteralV3Out } ∧
    wLiteralV3Out.defaultValue = some Vector3Zero ∧
    ((targetPortChanged (some wLiteralV3Out) (some wBoundInPort) wHandlerState true).outPort =
        some { wLiteralV3Out with connection := some 7, typeTag := wCpX.typeTag } ∧
      nodeConnLookup
        (targetPortChanged (some wLiteralV3Out) (some wBoundInPort) wHandlerState
            true).st.nodeConn wLiteralV3Out.nodeId = some (some 7) ∧
      (cpLookup
          (targetPortChanged (some wLiteralV3Out) (some wBoundInPort) wHandlerState
              true).st.cps 7).map (fun c => c.value) = some wLiteralV3Out.defaultValue) :=
  ⟨by decide, by decide,
    C3_adopt_on_input_only_bound (some wLiteralV3Out) (some wBoundInPort) wHandlerState
      true { input := wBoundInPort, output := wLiteralV3Out } 7 wCpX
      (by decide) (by decide) (by decide) (by decide)⟩

/-- C4: on link removal with successful orientation resolution: if both
resolved ports are bound to connection points, `disconnectFrom` is called
between them and both ports are resynchronized from their (post-disconnect)
connection-point state; if instead only the input port is bound and it holds
a non-empty literal value, that value is cleared to null and no
`disconnectFrom` call is issued (the action trace is exactly the
unconditional selection-cleared notification). -/
theorem C4_link_removal_sync :
    (∀ (src tgt : Option PortData) (st : HandlerState) (link : SortedPorts) (ic oc : Nat),
      DefaultPortModel.SortInputOutput src tgt = some link →
      link.input.connection = some ic →
      link.output.connection = some oc →
      (linksUpdatedRemoved src tgt st).actions =
        [SyncAction.selectionCleared, SyncAction.disconnectCall oc ic] ∧
      (linksUpdatedRemoved src tgt st).st.cps = disconnectFrom st.cps oc ic ∧
      (linksUpdatedRemoved src tgt st).inPort =
        some (syncWithNodeMaterialConnectionPoint link.input ic
          (disconnectFrom st.cps oc ic)) ∧
      (linksUpdatedRemoved src tgt st).outPort =
        some (syncWithNodeMaterialConnectionPoint link.output oc
          (disconnectFrom st.cps oc ic))) ∧
    (∀ (src tgt : Option PortData) (st : HandlerState) (link : SortedPorts)
      (ic : Nat) (cp : CPData) (v : Value),
      DefaultPortModel.SortInputOutput src tgt = some link →
      link.input.connection = some ic →
      link.output.connection = none →
      cpLookup st.cps ic = some cp →
      cp.value = some v →
      (cpLookup (linksUpdatedRemoved src tgt st).st.cps ic).map (fun c => c.value) =
        some none ∧
      (linksUpdatedRemoved src tgt st).actions = [SyncAction.selectionCleared]) := by
  constructor
  · intro src tgt st link ic oc hsort hin hout
    simp [linksUpdatedRemoved, hsort, hin, hout]
  · intro src tgt st link ic cp v hsort hin hout hcp hv
    simp [linksUpdatedRemoved, hsort, hin, hout, hcp, hv, cpLookup_cpUpdate]

/-- C4 witness: deleting a true edge between bound ports 8 and 7 issues the
disconnect call and resynchronizes both ports; deleting the value-injection
link afterwards clears point 7's held zero vector to null with no disconnect
call. -/
theorem C4_link_removal_witness :
    ((linksUpdatedRemoved (some wBoundOutPort) (some wBoundInPort) wHandlerState).actions =
        [SyncAction.selectionCleared, SyncAction.disconnectCall 8 7] ∧
      (linksUpdatedRemoved (some wBoundOutPort) (some wBoundInPort) wHandlerState).st.cps =
        disconnectFrom wHandlerState.cps 8 7 ∧
      (linksUpdatedRemoved (some wBoundOutPort) (some wBoundInPort) wHandlerState).inPort =
        some (syncWithNodeMaterialConnectionPoint wBoundInPort 7
          (disconnectFrom wHandlerState.cps 8 7)) ∧
      (linksUpdatedRemoved (some wBoundOutPort) (some wBoundInPort) wHandlerState).outPort =
        some (syncWithNodeMaterialConnectionPoint wBoundOutPort 8
          (disconnectFrom wHandlerState.cps 8 7))) ∧
    ((cpLookup (linksUpdatedRemoved (some wLiteralV3Out) (some wBoundInPort)
          wHandlerStateHeld).st.cps 7).map (fun c => c.value) = some none ∧
      (linksUpdatedRemoved (some wLiteralV3Out) (some wBoundInPort)
          wHandlerStateHeld).actions = [SyncAction.selectionCleared]) :=
  ⟨C4_link_removal_sync.1 (some wBoundOutPort) (some wBoundInPort) wHandlerState
      { input := wBoundInPort, output := wBoundOutPort } 7 8
      (by decide) (by decide) (by decide),
    C4_link_removal_sync.2 (some wLiteralV3Out) (some wBoundInPort) wHandlerStateHeld
      { input := wBoundInPort, output := wLiteralV3Out } 7
      { wCpX with value := some Vector3Zero } Vector3Zero
      (by decide) (by decide) (by decide) (by decide) (by decide)⟩

end NodeEditor

namespace InputHub

/-- Shared step for the dedup arguments: consing a fresh name onto a result
that avoids `raised ++ [name]` yields a duplicate-free result avoiding
`raised`. -/
theorem raiseStepNodup {name : String} {raised restResult : List String}
    (hcont : name ∉ raised)
    (h1 : restResult.Nodup)
    (h2 : ∀ n ∈ restResult, n ∉ raised ++ [name]) :
    (name :: restResult).Nodup ∧ ∀ n ∈ name :: restResult, n ∉ raised := by
  constructor
  · refine List.nodup_cons.mpr ⟨?_, h1⟩
    intro hmem
    have hx := h2 name hmem
    simp at hx
  · intro n hn
    rcases List.mem_cons.mp hn with h | h
    · subst h
      exact hcont
    · have hx := h2 n h
      simp only [List.mem_append, List.mem_singleton] at hx
      exact fun hr => hx (Or.inl hr)

theorem pointerRaise000_nodup_aux (states : String → Bool) (evt : PointerEvt) :
    ∀ (evts : List MouseHubEvent) (raised : List String),
      (Hub000.pointerRaise states evt evts raised).Nodup ∧
      ∀ n ∈ Hub000.pointerRaise states evt evts raised, n ∉ raised := by
  intro evts
  induction evts with
  | nil => intro raised; simp [Hub000.pointerRaise]
  | cons e rest ih =>
    intro raised
    simp only [Hub000.pointerRaise]
    split
    · split
      · exact ih raised
      · split
        · exact ih raised
        · next hcont =>
            exact raiseStepNodup (fun hmem => hcont (List.elem_iff.mpr hmem))
              (ih (raised ++ [e.eventName])).1 (ih (raised ++ [e.eventName])).2
    · exact ih raised

theorem keyboardRaise000_nodup_aux (states : String → Bool) (evt : KeyEvt) :
    ∀ (evts : List KeyboardHubEvent) (raised : List String),
      (Hub000.keyboardRaise states evt evts raised).Nodup ∧
      ∀ n ∈ Hub000.keyboardRaise states evt evts raised, n ∉ raised := by
  intro evts
  induction evts with
  | nil => intro raised; simp [Hub000.keyboardRaise]
  | cons e rest ih =>
    intro raised
    simp only [Hub000.keyboardRaise]
    split
    · split
      · exact ih raised
      · split
        · exact ih raised
        · next hcont =>
            exact raiseStepNodup (fun hmem => hcont (List.elem_iff.mpr hmem))
              (ih (raised ++ [e.eventName])).1 (ih (raised ++ [e.eventName])).2
    · exact ih raised

theorem keyboardRaise001_nodup_aux (states : String → Bool) (evt : KeyEvt) :
    ∀ (evts : List KeyboardHubEvent) (raised : List String),
      (Hub001.keyboardRaise states evt evts raised).Nodup ∧
      ∀ n ∈ Hub001.keyboardRaise states evt evts raised, n ∉ raised := by
  intro evts
  induction evts with
  | nil => intro raised; simp [Hub001.keyboardRaise]
  | cons e rest ih =>
    intro raised
    simp only [Hub001.keyboardRaise]
    split
    · split
      · exact ih raised
      · split
        · exact ih raised
        · split
          · exact ih raised
          · split
            · exact ih raised
            · next hcont =>
                exact raiseStepNodup (fun hmem => hcont (List.elem_iff.mpr hmem))
                  (ih (raised ++ [e.eventName])).1 (ih (raised ++ [e.eventName])).2
    · exact ih raised

/-- C10: for every single keyboard or pointer hardware event processed by the
InputHub variants of `part_000` and `part_001`, the list of event names
notified on `onEventObservable` contains no duplicates — each registered name
is notified at most once per hardware event, even when several matching
triggers share the same name. -/
theorem C10_each_event_notified_at_most_once :
    (∀ (states : String → Bool) (evt : PointerEvt) (evts : List MouseHubEvent),
      (Hub000.pointerRaise states evt evts []).Nodup) ∧
    (∀ (states : String → Bool) (evt : KeyEvt) (evts : List KeyboardHubEvent),
      ((Hub000.keyboardHandler states evt evts).2).Nodup) ∧
    (∀ (states : String → Bool) (evt : KeyEvt) (evts : List KeyboardHubEvent),
      ((Hub001.keyboardHandler states evt evts).2).Nodup) := by
  refine ⟨?_, ?_, ?_⟩
  · intro states evt evts
    exact (pointerRaise000_nodup_aux states evt evts []).1
  · intro states evt evts
    unfold Hub000.keyboardHandler
    split
    · simp
    · split
      · simp
      · split
        · simp
        · exact (keyboardRaise000_nodup_aux states evt evts []).1
  · intro states evt evts
    unfold Hub001.keyboardHandler
    split
    · simp
    · split
      · simp
      · split
        · simp
        · exact (keyboardRaise001_nodup_aux states evt evts []).1

end InputHub

namespace NodeEditor

theorem buildBlockRec_succ_eq (m : Material) (f : Nat) (bd : BlockData) (col : Nat)
    (s : EditorState) :
    buildBlockRec m (f + 1) bd col s =
      (some (createNodeCore (mkBlockOpts col bd) s).1,
        bd.inputs.foldl
          (buildInputStep m f (col + 1) (createNodeCore (mkBlockOpts col bd) s).1.nid)
          (createNodeCore (mkBlockOpts col bd) s).2) := rfl

theorem buildInputStep_passInv (m : Material) (f : Nat) (col2 : Nat) (cnid : Nat) :
    ∀ (acc : EditorState) (bid : Nat), PassInv acc (buildInputStep m f col2 cnid acc bid) := by
  intro acc bid
  unfold buildInputStep
  cases hfind : findNodeForBlock acc.nodes bid with
  | some existing => simpa [hfind] using pushLink_passInv acc _
  | none =>
    cases hfb : findBlock m bid with
    | none => simpa [hfind, hfb] using passInvRefl acc
    | some bd2 =>
      simp only [hfind, hfb]
      cases hres : (buildBlockRec m f bd2 col2 acc).1 with
      | none => simpa [hres] using buildBlockRec_passInv m f bd2 col2 acc
      | some p =>
        simp only [hres]
        exact passInvTrans (buildBlockRec_passInv m f bd2 col2 acc) (pushLink_passInv _ _)

theorem createNodeCore_finalMerger_facts (bd : BlockData) (col : Nat) (s : EditorState)
    (hfm : bd.isFinalMerger = true) :
    (createNodeCore (mkBlockOpts col bd) s).2.trace =
      s.trace ++ BuildEvent.register bd.blockId :: [BuildEvent.nodeCreated s.nextId] ∧
    (createNodeCore (mkBlockOpts col bd) s).2.outputNodes =
      addOutputNode s.outputNodes bd.blockId := by
  simp [createNodeCore, mkBlockOpts, hfm]

/-- C1 counterexample: for the material with the single no-input final-merger
block 1, the full construction pass itself already inserts the newly
constructed visual node into the live Visual Model (the model holds one node
before any flush has run) while the pending change-set is still live and does
not contain it — contradicting the claim that every newly constructed node is
appended to the pending change-set rather than inserted into the live model,
with the model receiving it only through the flush. -/
theorem C1_nodes_not_deferred_counterexample :
    (buildPass c1Material 1 editorStart).modelNodes.length = 1 ∧
    (buildPass c1Material 1 editorStart).toAdd = some [] := by
  constructor <;> decide

/-- C1 (amended): during a full construction pass, newly constructed links
are appended to the pending change-set and not inserted into the live Visual
Model — the model receives the links only through the single flush operation
after the pass — while newly constructed visual nodes are inserted into the
live model immediately at construction time (after the pass the model already
holds exactly the constructed nodes and no links; the flush then moves
exactly the pending link set into the model and closes the pending set). -/
theorem C1_links_deferred_nodes_immediate (m : Material) (fuel : Nat) :
    (buildPass m fuel editorStart).modelLinks = [] ∧
    (buildPass m fuel editorStart).modelNodes = (buildPass m fuel editorStart).nodes ∧
    ∃ pend, (buildPass m fuel editorStart).toAdd = some pend ∧
      (flushPending (buildPass m fuel editorStart)).modelLinks = pend ∧
      (flushPending (buildPass m fuel editorStart)).toAdd = none := by
  have h0 : PassInv editorStart (buildPass m fuel editorStart) := by
    unfold buildPass
    exact passInvTrans (buildRoots_passInv m fuel m.vertexOutputNodes _)
      (buildRoots_passInv m fuel m.fragmentOutputNodes _)
  obtain ⟨⟨l2, hta⟩, hml⟩ := h0.pending [] rfl
  rw [List.nil_append] at hta
  have hml' : (buildPass m fuel editorStart).modelLinks = [] := hml
  refine ⟨hml', h0.nodesSync rfl, l2, hta, ?_, ?_⟩
  · unfold flushPending
    rw [hta]
    simp [hml']
  · unfold flushPending
    rw [hta]

/-- C7: for a visual node wrapping a semantic block with
`isFinalMerger = true`, the block is registered in the Output Root Registrar
immediately upon construction — the register event is the first event the
construction emits, before any recursion into the block's predecessors — it
is present exactly once in the (duplicate-free) registrar after the whole
construction, and deleting the node unregisters it. -/
theorem C7_final_merger_registered_once (m : Material) (fuel : Nat) (bd : BlockData)
    (col : Nat) (s : EditorState) (node : VisualNode) (outs : List Nat)
    (hfm : bd.isFinalMerger = true)
    (hnd : s.outputNodes.Nodup)
    (hnode : node.block = some bd)
    (houts : outs.Nodup) :
    (∃ rest, ((buildBlockRec m (fuel + 1) bd col s).2).trace =
      s.trace ++ BuildEvent.register bd.blockId :: rest) ∧
    bd.blockId ∈ ((buildBlockRec m (fuel + 1) bd col s).2).outputNodes ∧
    ((buildBlockRec m (fuel + 1) bd col s).2).outputNodes.count bd.blockId = 1 ∧
    bd.blockId ∉ nodesUpdatedDeleted node outs := by
  have hcore := createNodeCore_finalMerger_facts bd col s hfm
  have hfold : PassInv (createNodeCore (mkBlockOpts col bd) s).2
      ((buildBlockRec m (fuel + 1) bd col s).2) := by
    rw [buildBlockRec_succ_eq]
    exact foldl_passInv _ (buildInputStep_passInv m fuel (col + 1) _) bd.inputs _
  have hmem : bd.blockId ∈ ((buildBlockRec m (fuel + 1) bd col s).2).outputNodes := by
    refine hfold.outMono bd.blockId ?_
    rw [hcore.2]
    exact mem_addOutputNode_self s.outputNodes bd.blockId
  have hnodup : ((buildBlockRec m (fuel + 1) bd col s).2).outputNodes.Nodup := by
    refine hfold.outNodup ?_
    rw [hcore.2]
    exact addOutputNode_nodup hnd
  refine ⟨?_, hmem, List.count_eq_one_of_mem hnodup hmem, ?_⟩
  · obtain ⟨ev, hev⟩ := hfold.traceExt
    refine ⟨[BuildEvent.nodeCreated s.nextId] ++ ev, ?_⟩
    rw [hev, hcore.1]
    simp
  · simp only [nodesUpdatedDeleted, hnode, hfm, if_true, removeOutputNode]
    exact houts.not_mem_erase

/-- C7 witness: constructing the concrete final-merger block 1 from the fresh
editor emits the register event first, leaves block 1 registered exactly
once, and the deletion handler applied to the node wrapping it removes it
from the registrar `[1]`. -/
theorem C7_final_merger_witness :
    c1Block.isFinalMerger = true ∧
    editorStart.outputNodes.Nodup ∧
    wFinalNode.block = some c1Block ∧
    ([1] : List Nat).Nodup ∧
    ((∃ rest, ((buildBlockRec c1Material 1 c1Block 0 editorStart).2).trace =
        editorStart.trace ++ BuildEvent.register c1Block.blockId :: rest) ∧
      c1Block.blockId ∈ ((buildBlockRec c1Material 1 c1Block 0 editorStart).2).outputNodes ∧
      ((buildBlockRec c1Material 1 c1Block 0 editorStart).2).outputNodes.count
        c1Block.blockId = 1 ∧
      c1Block.blockId ∉ nodesUpdatedDeleted wFinalNode [1]) :=
  ⟨rfl, by decide, rfl, by decide,
    C7_final_merger_registered_once c1Material 0 c1Block 0 editorStart wFinalNode [1]
      rfl (by decide) rfl (by decide)⟩

end NodeEditor
